import Mathlib

/-!
Verification of `prediction.py` from the `time-series-prediction` repository.

The program is embedded shallowly:
* a timestamp is the number of minutes since 1970-01-01 00:00 (an `Int`),
  with calendar fields recovered by the standard civil-calendar conversion;
* the time-indexed table (`pd.DataFrame`) is a list of
  (timestamp, value) rows sorted ascending by timestamp, values in `ℚ`;
* `pd.Series.nsmallest` (default `keep = first`) is the stable
  `List.mergeSort` by key followed by `take`;
* a missing value (`NaN` mean of an empty selection) is `Option.none`;
* the `ValueError` raised by `get_weekday_group` is `Except.error`;
* loading CSV files is out of scope: `predict_next_year` receives the
  already-loaded sorted table in place of `file_paths`.
-/

namespace Prediction

/-- Day number of a Gregorian calendar date, with 1970-01-01 as day 0
(negative before that).  Mirrors the arithmetic used by `pandas`
timestamps. -/
def daysFromCivil (y m d : Int) : Int :=
  let yy : Int := if m ≤ 2 then y - 1 else y
  let era : Int := Int.fdiv yy 400
  let yoe : Int := yy - era * 400
  let mp : Int := Int.emod (m + 9) 12
  let doy : Int := Int.fdiv (153 * mp + 2) 5 + d - 1
  let doe : Int := yoe * 365 + Int.fdiv yoe 4 - Int.fdiv yoe 100 + doy
  era * 146097 + doe - 719468

/-- A calendar date (year, month, day). -/
structure Date where
  year : Int
  month : Int
  day : Int
deriving DecidableEq, Repr

/-- Inverse of `daysFromCivil`: the calendar date of a day number. -/
def civilFromDays (z0 : Int) : Date :=
  let z : Int := z0 + 719468
  let era : Int := Int.fdiv z 146097
  let doe : Int := z - era * 146097
  let yoe : Int :=
    Int.fdiv (doe - Int.fdiv doe 1460 + Int.fdiv doe 36524 - Int.fdiv doe 146096) 365
  let y : Int := yoe + era * 400
  let doy : Int := doe - (365 * yoe + Int.fdiv yoe 4 - Int.fdiv yoe 100)
  let mp : Int := Int.fdiv (5 * doy + 2) 153
  let d : Int := doy - Int.fdiv (153 * mp + 2) 5 + 1
  let m : Int := mp + (if mp < 10 then 3 else -9)
  { year := if m ≤ 2 then y + 1 else y, month := m, day := d }

/-- Minutes per day. -/
def minutesPerDay : Int := 1440

/-- The day number a timestamp falls on. -/
def tsDay (ts : Int) : Int := Int.fdiv ts minutesPerDay

/-- Time of day of a timestamp, in minutes after midnight
(`Timestamp.time()` in the source). -/
def tsTime (ts : Int) : Int := Int.emod ts minutesPerDay

/-- Natural weekday ordinal of a timestamp, Monday = 0 .. Sunday = 6
(`Timestamp.weekday()` in the source).  1970-01-01 was a Thursday (3). -/
def tsWeekday (ts : Int) : Int := Int.emod (tsDay ts + 3) 7

/-- Calendar date of a timestamp. -/
def tsDate (ts : Int) : Date := civilFromDays (tsDay ts)

/-- Calendar month of a timestamp (`Timestamp.month`). -/
def tsMonth (ts : Int) : Int := (tsDate ts).month

/-- Calendar day-of-month of a timestamp (`Timestamp.day`). -/
def tsDom (ts : Int) : Int := (tsDate ts).day

/-- Build the timestamp of year-month-day hh:mm. -/
def mkTs (y m d hh mm : Int) : Int :=
  daysFromCivil y m d * minutesPerDay + hh * 60 + mm

/-- `(x - target).days` of the source, line 29: the `pandas` `Timedelta.days`
attribute, which is floor division of the signed difference by one day. -/
def tdDays (x target : Int) : Int := Int.fdiv (x - target) minutesPerDay

/-- A row of the historical table: (timestamp, value). -/
abbrev Row : Type := Int × ℚ

/-- Equality of run outcomes is decidable (needed to evaluate the embedded
program on concrete inputs inside proofs). -/
instance instDecEqExcept {ε α : Type} [DecidableEq ε] [DecidableEq α] :
    DecidableEq (Except ε α) := fun a b =>
  match a, b with
  | Except.ok x, Except.ok y =>
    match decEq x y with
    | isTrue h => isTrue (by rw [h])
    | isFalse h => isFalse (by intro hc; cases hc; exact h rfl)
  | Except.ok _, Except.error _ => isFalse (by intro hc; cases hc)
  | Except.error _, Except.ok _ => isFalse (by intro hc; cases hc)
  | Except.error x, Except.error y =>
    match decEq x y with
    | isTrue h => isTrue (by rw [h])
    | isFalse h => isFalse (by intro hc; cases hc; exact h rfl)

/-- Source line 22: the rows of the historical table whose index weekday
(natural weekday of the timestamp) lies in `weekday_groups[group]`. -/
def group_filtered (historical_data : List Row) (group : String)
    (weekday_groups : List (String × List Int)) : List Row :=
  historical_data.filter
    (fun r => decide (tsWeekday r.1 ∈ ((weekday_groups.lookup group).getD [])))

/-- Source lines 25-26: restrict the group-filtered rows to those sharing
the calendar (month, day) of the target. -/
def candidate_pool (target_date : Int) (historical_data : List Row)
    (group : String) (weekday_groups : List (String × List Int)) : List Row :=
  (group_filtered historical_data group weekday_groups).filter
    (fun r => decide (tsMonth r.1 = tsMonth target_date ∧ tsDom r.1 = tsDom target_date))

/-- Comparison key of source line 29: `abs((x - target_date).days)`. -/
def distKey (target_date : Int) (r : Row) : Int := |tdDays r.1 target_date|

/-- Insert an element into a key-sorted list, before the first element
whose key is not smaller — so an element inserted from the left of the
input stays before every equal-key element to its right (stability). -/
def insertByKey (key : α → Int) (x : α) : List α → List α
  | [] => [x]
  | y :: ys => if key y < key x then y :: insertByKey key x ys else x :: y :: ys

/-- Stable sort by an integer key (insertion sort).  This is the stable
sort semantics of `pandas` `Series.nsmallest` with its default
`keep = first`: equal keys keep their original relative order. -/
def sortByKey (key : α → Int) : List α → List α
  | [] => []
  | x :: xs => insertByKey key x (sortByKey key xs)

/-- Source lines 16-31, `find_nearest_comparison_days`: filter the table to
the group and to matching (month, day), rank by `abs((x - target).days)`
with `nsmallest` (stable, ties keep original — ascending index — order),
and return the selected index entries (timestamps). -/
def find_nearest_comparison_days (target_date : Int) (historical_data : List Row)
    (group : String) (weekday_groups : List (String × List Int))
    (num_days : Nat := 4) : List Int :=
  let pool := candidate_pool target_date historical_data group weekday_groups
  let ranked := sortByKey (distKey target_date) pool
  (ranked.take num_days).map Prod.fst

/-- Source lines 33-39, `apply_holiday_map`: the override fires only when
the full timestamp equals a key of the map (Python `dict` membership on
`pd.Timestamp` keys); otherwise the natural weekday is returned. -/
def apply_holiday_map (date : Int) (holiday_map : List (Int × Int)) : Int :=
  match holiday_map.lookup date with
  | some w => w
  | none => tsWeekday date

/-- Source lines 41-48, `get_weekday_group`: first group (in insertion
order) whose ordinal list contains the weekday; `ValueError` otherwise. -/
def get_weekday_group (weekday : Int) :
    List (String × List Int) → Except String String
  | [] => Except.error "weekday not in weekday_groups"
  | (group, days) :: rest =>
    if weekday ∈ days then Except.ok group else get_weekday_group weekday rest

/-- Source line 72, `pd.date_range(start, end, freq)` with a positive
frequency of `freq` minutes: the grid start, start+freq, ... of points ≤ end
(empty when end precedes start). -/
def date_range (start_date end_date : Int) (freq : Nat) : List Int :=
  if start_date ≤ end_date ∧ 0 < freq then
    (List.range ((end_date - start_date).toNat / freq + 1)).map
      (fun i => start_date + ((i * freq : Nat) : Int))
  else []

/-- Source line 84, `historical_data.loc[comparison_days]`: the rows whose
timestamp equals one of the selected labels, in label order. -/
def comparison_rows (historical_data : List Row) (days : List Int) : List Row :=
  days.flatMap (fun d => historical_data.filter (fun r => decide (r.1 = d)))

/-- Source line 85, the row selection feeding the mean: among the rows of
the selected comparison days, the values at the time of day of the target. -/
def extracted_vals (historical_data : List Row) (days : List Int)
    (target_date : Int) : List ℚ :=
  ((comparison_rows historical_data days).filter
    (fun r => decide (tsTime r.1 = tsTime target_date))).map Prod.snd

/-- Source line 85, `.mean()`: `NaN` (here `none`) on an empty selection,
else the arithmetic mean. -/
def mean_vals (vals : List ℚ) : Option ℚ :=
  if vals.length = 0 then none else some (vals.sum / (vals.length : ℚ))

/-- The pure per-step value of the driver loop body (source lines 81-85),
given the already-classified group. -/
def step_value (historical_data : List Row) (target_date : Int) (group : String)
    (weekday_groups : List (String × List Int)) : Option ℚ :=
  mean_vals (extracted_vals historical_data
    (find_nearest_comparison_days target_date historical_data group weekday_groups)
    target_date)

/-- Source line 75: the weekday used for classification —
`apply_holiday_map(target_date, holiday_map) if holiday_map else
target_date.weekday()` (an absent or empty map means natural weekday). -/
def effective_weekday (target_date : Int) (holiday_map : List (Int × Int)) : Int :=
  if holiday_map.isEmpty then tsWeekday target_date
  else apply_holiday_map target_date holiday_map

/-- One iteration of the driver loop (source lines 72-88): classify the
target, then compute its averaged value; classification failure aborts. -/
def predict_step (historical_data : List Row)
    (weekday_groups : List (String × List Int)) (holiday_map : List (Int × Int))
    (target_date : Int) : Except String (Int × Option ℚ) :=
  match get_weekday_group (effective_weekday target_date holiday_map) weekday_groups with
  | Except.error e => Except.error e
  | Except.ok group =>
    Except.ok (target_date, step_value historical_data target_date group weekday_groups)

/-- The pair a successful iteration appends for a timestamp (the error
branch is irrelevant: a failed classification aborts the whole run). -/
def step_pair (historical_data : List Row)
    (weekday_groups : List (String × List Int)) (holiday_map : List (Int × Int))
    (target_date : Int) : Int × Option ℚ :=
  match predict_step historical_data weekday_groups holiday_map target_date with
  | Except.ok p => p
  | Except.error _ => (target_date, none)

/-- The driver loop over the generated timestamps, first failure wins. -/
def predict_steps (historical_data : List Row)
    (weekday_groups : List (String × List Int))
    (holiday_map : List (Int × Int)) : List Int → Except String (List (Int × Option ℚ))
  | [] => Except.ok []
  | ts :: rest =>
    match predict_step historical_data weekday_groups holiday_map ts with
    | Except.error e => Except.error e
    | Except.ok p =>
      match predict_steps historical_data weekday_groups holiday_map rest with
      | Except.error e => Except.error e
      | Except.ok tail => Except.ok (p :: tail)

/-- Source lines 50-93, `predict_next_year`, with the CSV loading replaced
by the already-loaded sorted table: iterate the target period at the given
frequency and collect (timestamp, value-or-missing) pairs. -/
def predict_next_year (historical_data : List Row)
    (prediction_period : Int × Int)
    (weekday_groups : List (String × List Int)) (freq : Nat)
    (holiday_map : List (Int × Int) := []) :
    Except String (List (Int × Option ℚ)) :=
  predict_steps historical_data weekday_groups holiday_map
    (date_range prediction_period.1 prediction_period.2 freq)

/-! ### Properties of the stable ranking -/

theorem length_insertByKey (key : α → Int) (x : α) (l : List α) :
    (insertByKey key x l).length = l.length + 1 := by
  induction l with
  | nil => rfl
  | cons y ys ih =>
    simp only [insertByKey]
    split
    · simp [ih]
    · simp

theorem length_sortByKey (key : α → Int) (l : List α) :
    (sortByKey key l).length = l.length := by
  induction l with
  | nil => rfl
  | cons x xs ih => simp [sortByKey, length_insertByKey, ih]

theorem perm_insertByKey (key : α → Int) (x : α) (l : List α) :
    (insertByKey key x l).Perm (x :: l) := by
  induction l with
  | nil => exact List.Perm.refl _
  | cons y ys ih =>
    simp only [insertByKey]
    split
    · exact (ih.cons y).trans (List.Perm.swap x y ys)
    · exact List.Perm.refl _

theorem perm_sortByKey (key : α → Int) (l : List α) :
    (sortByKey key l).Perm l := by
  induction l with
  | nil => exact List.Perm.refl _
  | cons x xs ih => exact (perm_insertByKey key x (sortByKey key xs)).trans (ih.cons x)

theorem mem_sortByKey {key : α → Int} {a : α} {l : List α} :
    a ∈ sortByKey key l ↔ a ∈ l :=
  (perm_sortByKey key l).mem_iff

theorem sorted_insertByKey {key : α → Int} {x : α} {l : List α}
    (h : l.Pairwise (fun a b => key a ≤ key b)) :
    (insertByKey key x l).Pairwise (fun a b => key a ≤ key b) := by
  induction l with
  | nil => simp [insertByKey]
  | cons y ys ih =>
    rcases List.pairwise_cons.mp h with ⟨hy, hys⟩
    simp only [insertByKey]
    split
    · next hlt =>
      refine List.pairwise_cons.mpr ⟨?_, ih hys⟩
      intro b hb
      rcases List.mem_cons.mp ((perm_insertByKey key x ys).mem_iff.mp hb) with rfl | hb
      · exact le_of_lt hlt
      · exact hy b hb
    · next hnlt =>
      refine List.pairwise_cons.mpr ⟨?_, h⟩
      intro b hb
      rcases List.mem_cons.mp hb with rfl | hb
      · exact not_lt.mp hnlt
      · exact le_trans (not_lt.mp hnlt) (hy b hb)

theorem sorted_sortByKey (key : α → Int) (l : List α) :
    (sortByKey key l).Pairwise (fun a b => key a ≤ key b) := by
  induction l with
  | nil => exact List.Pairwise.nil
  | cons x xs ih => exact sorted_insertByKey ih

theorem sublist_insertByKey (key : α → Int) (x : α) {c l : List α}
    (h : List.Sublist c l) : List.Sublist c (insertByKey key x l) := by
  induction l generalizing c with
  | nil =>
    rw [List.sublist_nil.mp h]
    exact List.nil_sublist _
  | cons y ys ih =>
    simp only [insertByKey]
    split
    · cases h with
      | cons _ h => exact (ih h).cons y
      | cons₂ _ h => exact (ih h).cons₂ y
    · exact h.cons x

theorem pair_sublist_insertByKey {key : α → Int} {x b : α} {l : List α}
    (hsorted : l.Pairwise (fun a c => key a ≤ key c))
    (hb : b ∈ l) (hxb : key x ≤ key b) :
    List.Sublist [x, b] (insertByKey key x l) := by
  induction l with
  | nil => cases hb
  | cons y ys ih =>
    rcases List.pairwise_cons.mp hsorted with ⟨hy, hys⟩
    simp only [insertByKey]
    split
    · next hlt =>
      rcases List.mem_cons.mp hb with rfl | hb
      · exact absurd (lt_of_lt_of_le hlt hxb) (lt_irrefl _)
      · exact (ih hys hb).cons y
    · next hnlt =>
      exact (List.singleton_sublist.mpr hb).cons₂ x

theorem pair_sublist_sortByKey {key : α → Int} {a b : α} {l : List α}
    (hab : key a ≤ key b) (h : List.Sublist [a, b] l) :
    List.Sublist [a, b] (sortByKey key l) := by
  induction l with
  | nil => cases h
  | cons x xs ih =>
    simp only [sortByKey]
    cases h with
    | cons _ h => exact sublist_insertByKey _ x (ih h)
    | cons₂ _ h =>
      exact pair_sublist_insertByKey (sorted_sortByKey _ xs)
        (mem_sortByKey.mpr (List.singleton_sublist.mp h)) hab

theorem mem_take_of_pair_sublist {a b : α} {s : List α} {n : Nat}
    (hnd : s.Nodup) (h : List.Sublist [a, b] s) (hb : b ∈ s.take n) :
    a ∈ s.take n := by
  induction s generalizing n with
  | nil => simp at hb
  | cons x xs ih =>
    cases n with
    | zero => simp at hb
    | succ m =>
      rcases List.nodup_cons.mp hnd with ⟨hx, hxs⟩
      simp only [List.take_succ_cons] at hb ⊢
      cases h with
      | cons₂ _ h => exact List.mem_cons_self _ _
      | cons _ h =>
        rcases List.mem_cons.mp hb with hbx | hb
        · exact absurd (hbx ▸ h.subset (by simp)) hx
        · exact List.mem_cons_of_mem _ (ih hxs h hb)

theorem pair_sublist_of_fst_lt {a b : Row} {l : List Row}
    (hp : l.Pairwise (fun u v => u.1 < v.1)) (ha : a ∈ l) (hb : b ∈ l)
    (hab : a.1 < b.1) : List.Sublist [a, b] l := by
  induction l with
  | nil => cases ha
  | cons x xs ih =>
    rcases List.pairwise_cons.mp hp with ⟨hx, hxs⟩
    by_cases hax : a = x
    · have hbxs : b ∈ xs := by
        rcases List.mem_cons.mp hb with hbx | hbxs
        · exact absurd (hbx ▸ hab) (by rw [hax]; exact lt_irrefl _)
        · exact hbxs
      rw [← hax]
      exact (List.singleton_sublist.mpr hbxs).cons₂ a
    · have haxs : a ∈ xs := (List.mem_cons.mp ha).resolve_left hax
      have hbxs : b ∈ xs := by
        rcases List.mem_cons.mp hb with hbx | hbxs
        · exact absurd (lt_trans (hx a haxs) (hbx ▸ hab)) (lt_irrefl _)
        · exact hbxs
      exact (ih hxs haxs hbxs).cons x

theorem eq_of_fst_eq_of_pairwise {r b : Row} {l : List Row}
    (hp : l.Pairwise (fun u v => u.1 < v.1)) (hr : r ∈ l) (hb : b ∈ l)
    (h : r.1 = b.1) : r = b := by
  induction l with
  | nil => cases hr
  | cons x xs ih =>
    rcases List.pairwise_cons.mp hp with ⟨hx, hxs⟩
    by_cases hrx : r = x
    · by_cases hbx : b = x
      · rw [hrx, hbx]
      · have hbxs : b ∈ xs := (List.mem_cons.mp hb).resolve_left hbx
        exact absurd (hx b hbxs) (by rw [← hrx, h]; exact lt_irrefl _)
    · have hrxs : r ∈ xs := (List.mem_cons.mp hr).resolve_left hrx
      by_cases hbx : b = x
      · exact absurd (hx r hrxs) (by rw [← hbx, ← h]; exact lt_irrefl _)
      · exact ih hxs hrxs ((List.mem_cons.mp hb).resolve_left hbx)

theorem nodup_of_pairwise_fst_lt {l : List Row}
    (hp : l.Pairwise (fun u v => u.1 < v.1)) : l.Nodup :=
  hp.imp (fun hlt => fun he => absurd (he ▸ hlt) (lt_irrefl _))

/-! ### Properties of the driver loop -/

theorem step_pair_fst (historical_data : List Row)
    (weekday_groups : List (String × List Int)) (holiday_map : List (Int × Int))
    (ts : Int) : (step_pair historical_data weekday_groups holiday_map ts).1 = ts := by
  unfold step_pair predict_step
  cases get_weekday_group (effective_weekday ts holiday_map) weekday_groups with
  | error e => rfl
  | ok g => rfl

theorem predict_step_ok_eq (historical_data : List Row)
    (weekday_groups : List (String × List Int)) (holiday_map : List (Int × Int))
    (ts : Int) (group : String)
    (hg : get_weekday_group (effective_weekday ts holiday_map) weekday_groups
      = Except.ok group) :
    predict_step historical_data weekday_groups holiday_map ts
      = Except.ok (ts, step_value historical_data ts group weekday_groups) := by
  unfold predict_step
  rw [hg]

theorem predict_steps_ok_of_all_ok (historical_data : List Row)
    (weekday_groups : List (String × List Int)) (holiday_map : List (Int × Int))
    (l : List Int)
    (h : ∀ ts ∈ l,
      (predict_step historical_data weekday_groups holiday_map ts).isOk = true) :
    predict_steps historical_data weekday_groups holiday_map l
      = Except.ok (l.map (step_pair historical_data weekday_groups holiday_map)) := by
  induction l with
  | nil => rfl
  | cons ts rest ih =>
    have hts := h ts (List.mem_cons_self _ _)
    have hrest := ih (fun t ht => h t (List.mem_cons_of_mem _ ht))
    unfold predict_steps
    rw [hrest]
    cases hstep : predict_step historical_data weekday_groups holiday_map ts with
    | error e => rw [hstep] at hts; cases hts
    | ok p =>
      simp only [List.map_cons]
      have : step_pair historical_data weekday_groups holiday_map ts = p := by
        unfold step_pair
        rw [hstep]
      rw [this]

theorem predict_steps_eq_of_ok (historical_data : List Row)
    (weekday_groups : List (String × List Int)) (holiday_map : List (Int × Int))
    (l : List Int) (res : List (Int × Option ℚ))
    (h : predict_steps historical_data weekday_groups holiday_map l = Except.ok res) :
    res = l.map (step_pair historical_data weekday_groups holiday_map) := by
  induction l generalizing res with
  | nil =>
    simp only [predict_steps] at h
    cases h
    rfl
  | cons ts rest ih =>
    unfold predict_steps at h
    cases hstep : predict_step historical_data weekday_groups holiday_map ts with
    | error e => rw [hstep] at h; cases h
    | ok p =>
      rw [hstep] at h
      cases hrest : predict_steps historical_data weekday_groups holiday_map rest with
      | error e => rw [hrest] at h; cases h
      | ok tail =>
        rw [hrest] at h
        cases h
        have hp : step_pair historical_data weekday_groups holiday_map ts = p := by
          unfold step_pair
          rw [hstep]
        simp only [List.map_cons, hp]
        rw [ih tail hrest]

theorem predict_steps_not_ok_of_mem_error (historical_data : List Row)
    (weekday_groups : List (String × List Int)) (holiday_map : List (Int × Int))
    (l : List Int) (ts : Int) (e : String)
    (hts : ts ∈ l)
    (herr : predict_step historical_data weekday_groups holiday_map ts = Except.error e) :
    ∀ res, predict_steps historical_data weekday_groups holiday_map l ≠ Except.ok res := by
  induction l with
  | nil => cases hts
  | cons x xs ih =>
    intro res hok
    unfold predict_steps at hok
    cases hstep : predict_step historical_data weekday_groups holiday_map x with
    | error e2 => rw [hstep] at hok; cases hok
    | ok p =>
      rw [hstep] at hok
      cases hrest : predict_steps historical_data weekday_groups holiday_map xs with
      | error e2 => rw [hrest] at hok; cases hok
      | ok tail =>
        rcases List.mem_cons.mp hts with rfl | hts2
        · rw [hstep] at herr; cases herr
        · exact ih hts2 tail hrest

theorem get_weekday_group_error_msg (weekday : Int)
    (weekday_groups : List (String × List Int)) (e : String)
    (h : get_weekday_group weekday weekday_groups = Except.error e) :
    e = "weekday not in weekday_groups" := by
  induction weekday_groups with
  | nil =>
    simp only [get_weekday_group] at h
    cases h
    rfl
  | cons p rest ih =>
    simp only [get_weekday_group] at h
    split at h
    · cases h
    · exact ih h

theorem get_weekday_group_error_of_unmapped (weekday : Int)
    (weekday_groups : List (String × List Int))
    (h : ∀ p ∈ weekday_groups, weekday ∉ p.2) :
    get_weekday_group weekday weekday_groups
      = Except.error "weekday not in weekday_groups" := by
  induction weekday_groups with
  | nil => rfl
  | cons p rest ih =>
    simp only [get_weekday_group]
    rw [if_neg (h p (List.mem_cons_self _ _))]
    exact ih (fun q hq => h q (List.mem_cons_of_mem _ hq))

theorem predict_step_error_msg (historical_data : List Row)
    (weekday_groups : List (String × List Int)) (holiday_map : List (Int × Int))
    (ts : Int) (e : String)
    (h : predict_step historical_data weekday_groups holiday_map ts = Except.error e) :
    e = "weekday not in weekday_groups" := by
  unfold predict_step at h
  cases hg : get_weekday_group (effective_weekday ts holiday_map) weekday_groups with
  | error e2 =>
    rw [hg] at h
    cases h
    exact get_weekday_group_error_msg _ _ _ hg
  | ok g => rw [hg] at h; cases h

theorem predict_steps_error_msg (historical_data : List Row)
    (weekday_groups : List (String × List Int)) (holiday_map : List (Int × Int))
    (l : List Int) (e : String)
    (h : predict_steps historical_data weekday_groups holiday_map l = Except.error e) :
    e = "weekday not in weekday_groups" := by
  induction l with
  | nil => simp only [predict_steps] at h; cases h
  | cons ts rest ih =>
    unfold predict_steps at h
    cases hstep : predict_step historical_data weekday_groups holiday_map ts with
    | error e2 =>
      rw [hstep] at h
      cases h
      exact predict_step_error_msg _ _ _ _ _ hstep
    | ok p =>
      rw [hstep] at h
      cases hrest : predict_steps historical_data weekday_groups holiday_map rest with
      | error e2 =>
        rw [hrest] at h
        cases h
        exact ih hrest
      | ok tail => rw [hrest] at h; cases h

/-! ### Properties of the timestamp grid -/

theorem date_range_eq (start_date end_date : Int) (freq : Nat)
    (hle : start_date ≤ end_date) (hfreq : 0 < freq) :
    date_range start_date end_date freq =
      (List.range ((end_date - start_date).toNat / freq + 1)).map
        (fun i => start_date + ((i * freq : Nat) : Int)) := by
  simp [date_range, hle, hfreq]

/-! ### Claims -/

/-- C5: for every step, the number of comparison days returned by the
selector is at most `num_days` and equals min(`num_days`, size of the
candidate pool of historical rows sharing the (month, day) of the target
within the weekday group of the target); a smaller pool is returned
whole, without error. -/
theorem comparison_count_eq_min (target_date : Int) (historical_data : List Row)
    (group : String) (weekday_groups : List (String × List Int)) (num_days : Nat) :
    (find_nearest_comparison_days target_date historical_data group weekday_groups
        num_days).length ≤ num_days ∧
    (find_nearest_comparison_days target_date historical_data group weekday_groups
        num_days).length
      = min num_days
          (candidate_pool target_date historical_data group weekday_groups).length := by
  constructor
  · simp only [find_nearest_comparison_days]
    simp [List.length_take, length_sortByKey]
  · simp only [find_nearest_comparison_days]
    simp [List.length_take, length_sortByKey]

/-- C10: every index entry selected by the comparison-day selector has its
natural weekday inside the group of the target — historical rows are filtered
by the natural weekday of their timestamp only, and the selector never
receives the holiday map, so a holiday override is never applied to a
historical date. -/
theorem selector_uses_natural_weekday (target_date : Int) (historical_data : List Row)
    (group : String) (weekday_groups : List (String × List Int)) (num_days : Nat)
    (ts : Int)
    (h : ts ∈ find_nearest_comparison_days target_date historical_data group
      weekday_groups num_days) :
    tsWeekday ts ∈ ((weekday_groups.lookup group).getD []) := by
  simp only [find_nearest_comparison_days] at h
  rcases List.mem_map.mp h with ⟨r, hrtake, rfl⟩
  have hr : r ∈ candidate_pool target_date historical_data group weekday_groups :=
    mem_sortByKey.mp (List.mem_of_mem_take hrtake)
  have hgf : r ∈ group_filtered historical_data group weekday_groups :=
    List.mem_of_mem_filter hr
  have hcond := List.of_mem_filter hgf
  simpa using hcond

/-- Witness for the C10 theorem: the natural
weekday (Monday, 0) lies in the group used. -/
theorem selector_uses_natural_weekday_witness :
    ((mkTs 2023 12 25 9 0 : Int) ∈ find_nearest_comparison_days (mkTs 2024 12 25 9 0)
      [(mkTs 2023 12 25 9 0, 30)] "all" [("all", [0, 1, 2, 3, 4, 5, 6])] 4) ∧
    tsWeekday (mkTs 2023 12 25 9 0) ∈
      ((([("all", [0, 1, 2, 3, 4, 5, 6])] : List (String × List Int)).lookup "all").getD []) :=
  ⟨by decide,
    selector_uses_natural_weekday (mkTs 2024 12 25 9 0) [(mkTs 2023 12 25 9 0, 30)]
      "all" [("all", [0, 1, 2, 3, 4, 5, 6])] 4 (mkTs 2023 12 25 9 0) (by decide)⟩

/-- C3: a weekday ordinal (after holiday override) contained in no group
makes the classifier fail with the error rather than defaulting, and the
driver propagates that error from any step: the run produces no forecast
list at all. -/
theorem unmapped_weekday_aborts (historical_data : List Row)
    (weekday_groups : List (String × List Int)) (holiday_map : List (Int × Int))
    (start_date end_date : Int) (freq : Nat) (ts : Int)
    (hts : ts ∈ date_range start_date end_date freq)
    (hunmapped : ∀ p ∈ weekday_groups, effective_weekday ts holiday_map ∉ p.2) :
    get_weekday_group (effective_weekday ts holiday_map) weekday_groups
      = Except.error "weekday not in weekday_groups" ∧
    predict_next_year historical_data (start_date, end_date) weekday_groups freq
      holiday_map = Except.error "weekday not in weekday_groups" := by
  have hg := get_weekday_group_error_of_unmapped _ _ hunmapped
  refine ⟨hg, ?_⟩
  have hstep : predict_step historical_data weekday_groups holiday_map ts
      = Except.error "weekday not in weekday_groups" := by
    unfold predict_step
    rw [hg]
  unfold predict_next_year
  cases hres : predict_steps historical_data weekday_groups holiday_map
      (date_range start_date end_date freq) with
  | ok res =>
    exact absurd hres
      (predict_steps_not_ok_of_mem_error _ _ _ _ ts _ hts hstep res)
  | error e =>
    rw [predict_steps_error_msg _ _ _ _ _ hres]

/-- Witness for the C3 theorem: Scenario C — a group map covering only
ordinals 0-5 and a Sunday target (2024-12-22) abort the run. -/
theorem unmapped_weekday_aborts_witness :
    ((mkTs 2024 12 22 9 0 : Int)
      ∈ date_range (mkTs 2024 12 22 9 0) (mkTs 2024 12 22 9 0) 60) ∧
    (∀ p ∈ ([("MonSat", [0, 1, 2, 3, 4, 5])] : List (String × List Int)),
      effective_weekday (mkTs 2024 12 22 9 0) [] ∉ p.2) ∧
    predict_next_year [] (mkTs 2024 12 22 9 0, mkTs 2024 12 22 9 0)
      [("MonSat", [0, 1, 2, 3, 4, 5])] 60 []
      = Except.error "weekday not in weekday_groups" :=
  ⟨by decide, by decide,
    (unmapped_weekday_aborts [] [("MonSat", [0, 1, 2, 3, 4, 5])] [] _ _ 60
      (mkTs 2024 12 22 9 0) (by decide) (by decide)).2⟩

/-- C4 counterexample: with the period end before its start the driver
raises nothing — it returns an (empty) ok-result, so no
`InvalidPeriodError`-like failure occurs before (or instead of)
iteration. -/
theorem invalid_period_no_error :
    predict_next_year [(mkTs 2023 1 1 9 0, 1)]
      (mkTs 2024 1 2 0 0, mkTs 2024 1 1 0 0)
      [("all", [0, 1, 2, 3, 4, 5, 6])] 60 [] = Except.ok [] := by decide

/-- C4 amended: for every target period whose end precedes its start, the
generated timestamp grid is empty, so `predict_next_year` performs no step
and returns the empty forecast successfully instead of raising an
error. -/
theorem empty_forecast_of_end_before_start (historical_data : List Row)
    (weekday_groups : List (String × List Int)) (holiday_map : List (Int × Int))
    (start_date end_date : Int) (freq : Nat) (h : end_date < start_date) :
    predict_next_year historical_data (start_date, end_date) weekday_groups freq
      holiday_map = Except.ok [] := by
  unfold predict_next_year date_range
  rw [if_neg (by intro hc; exact absurd hc.1 (not_le.mpr h))]
  rfl

/-- Witness for the amended C4 theorem at a concrete inverted period. -/
theorem empty_forecast_of_end_before_start_witness :
    (mkTs 2025 1 1 0 0 : Int) < mkTs 2025 6 1 0 0 ∧
    predict_next_year [] (mkTs 2025 6 1 0 0, mkTs 2025 1 1 0 0)
      [("all", [0, 1, 2, 3, 4, 5, 6])] 15 [] = Except.ok [] :=
  ⟨by decide, empty_forecast_of_end_before_start _ _ _ _ _ _ (by decide)⟩

/-- C6: the selector ranks candidates by absolute difference in elapsed
days from the target; between two equidistant candidates the tie is broken
deterministically toward the smaller (earlier) timestamp: whenever the
later of the pair is selected, so is the earlier. -/
theorem equidistant_tie_earlier_selected (target_date : Int)
    (historical_data : List Row) (group : String)
    (weekday_groups : List (String × List Int)) (num_days : Nat) (a b : Row)
    (hsorted : historical_data.Pairwise (fun u v => u.1 < v.1))
    (ha : a ∈ candidate_pool target_date historical_data group weekday_groups)
    (hb : b ∈ candidate_pool target_date historical_data group weekday_groups)
    (hdist : distKey target_date a = distKey target_date b)
    (hab : a.1 < b.1)
    (hsel : b.1 ∈ find_nearest_comparison_days target_date historical_data group
      weekday_groups num_days) :
    a.1 ∈ find_nearest_comparison_days target_date historical_data group
      weekday_groups num_days := by
  have hpool : (candidate_pool target_date historical_data group
      weekday_groups).Pairwise (fun u v => u.1 < v.1) := by
    unfold candidate_pool group_filtered
    exact (hsorted.filter _).filter _
  have hpair_pool := pair_sublist_of_fst_lt hpool ha hb hab
  have hpair_sorted : List.Sublist [a, b]
      (sortByKey (distKey target_date)
        (candidate_pool target_date historical_data group weekday_groups)) :=
    pair_sublist_sortByKey (le_of_eq hdist) hpair_pool
  have hnodup : (sortByKey (distKey target_date)
      (candidate_pool target_date historical_data group weekday_groups)).Nodup :=
    ((perm_sortByKey _ _).nodup_iff).mpr (nodup_of_pairwise_fst_lt hpool)
  simp only [find_nearest_comparison_days] at hsel ⊢
  rcases List.mem_map.mp hsel with ⟨r, hrtake, hrfst⟩
  have hrb : r = b :=
    eq_of_fst_eq_of_pairwise hpool
      (mem_sortByKey.mp (List.mem_of_mem_take hrtake)) hb hrfst
  rw [hrb] at hrtake
  exact List.mem_map.mpr ⟨a, mem_take_of_pair_sublist hnodup hpair_sorted hrtake, rfl⟩

/-- Witness for the C6 theorem: Scenario D — 2025-07-01 and 2027-07-01 are
both 365 days from target 2026-07-01; the earlier one is selected. -/
theorem equidistant_tie_earlier_selected_witness :
    distKey (mkTs 2026 7 1 9 0) ((mkTs 2025 7 1 9 0 : Int), (1 : ℚ))
      = distKey (mkTs 2026 7 1 9 0) ((mkTs 2027 7 1 9 0 : Int), (2 : ℚ)) ∧
    ((mkTs 2027 7 1 9 0 : Int) ∈ find_nearest_comparison_days (mkTs 2026 7 1 9 0)
      [(mkTs 2025 7 1 9 0, 1), (mkTs 2027 7 1 9 0, 2)] "all"
      [("all", [0, 1, 2, 3, 4, 5, 6])] 2) ∧
    ((mkTs 2025 7 1 9 0 : Int) ∈ find_nearest_comparison_days (mkTs 2026 7 1 9 0)
      [(mkTs 2025 7 1 9 0, 1), (mkTs 2027 7 1 9 0, 2)] "all"
      [("all", [0, 1, 2, 3, 4, 5, 6])] 2) :=
  ⟨by decide, by decide,
    equidistant_tie_earlier_selected (mkTs 2026 7 1 9 0)
      [(mkTs 2025 7 1 9 0, 1), (mkTs 2027 7 1 9 0, 2)] "all"
      [("all", [0, 1, 2, 3, 4, 5, 6])] 2
      (mkTs 2025 7 1 9 0, 1) (mkTs 2027 7 1 9 0, 2)
      (by decide) (by decide) (by decide) (by decide) (by decide) (by decide)⟩

/-- C7: when the extraction of a step is empty — empty candidate pool or no
observation at the matching time of day — the driver records the missing
marker `none` (not zero) for that timestamp, keeps it at its position, and
the run still returns the full-length result without aborting. -/
theorem empty_extraction_missing_marker (historical_data : List Row)
    (weekday_groups : List (String × List Int)) (holiday_map : List (Int × Int))
    (start_date end_date : Int) (freq : Nat) (ts : Int) (group : String)
    (hall : ∀ t ∈ date_range start_date end_date freq,
      (predict_step historical_data weekday_groups holiday_map t).isOk = true)
    (hts : ts ∈ date_range start_date end_date freq)
    (hg : get_weekday_group (effective_weekday ts holiday_map) weekday_groups
      = Except.ok group)
    (hempty : extracted_vals historical_data
      (find_nearest_comparison_days ts historical_data group weekday_groups) ts
      = []) :
    predict_next_year historical_data (start_date, end_date) weekday_groups freq
        holiday_map
      = Except.ok ((date_range start_date end_date freq).map
          (step_pair historical_data weekday_groups holiday_map)) ∧
    ((ts, (none : Option ℚ)) ∈ (date_range start_date end_date freq).map
      (step_pair historical_data weekday_groups holiday_map)) ∧
    ((date_range start_date end_date freq).map
        (step_pair historical_data weekday_groups holiday_map)).length
      = (date_range start_date end_date freq).length := by
  have hok := predict_steps_ok_of_all_ok historical_data weekday_groups holiday_map
    (date_range start_date end_date freq) hall
  have h1 : step_value historical_data ts group weekday_groups = none := by
    unfold step_value
    rw [hempty]
    rfl
  have hstep_pair : step_pair historical_data weekday_groups holiday_map ts
      = (ts, (none : Option ℚ)) := by
    unfold step_pair
    rw [predict_step_ok_eq _ _ _ _ _ hg, h1]
  exact ⟨hok, List.mem_map.mpr ⟨ts, hts, hstep_pair⟩, List.length_map _ _⟩

/-- Witness for the C7 theorem: Scenario B — no historical (month, day)
match for 2024-03-10 yields the missing marker and the run completes. -/
theorem empty_extraction_missing_marker_witness :
    (∀ t ∈ date_range (mkTs 2024 3 10 9 0) (mkTs 2024 3 10 9 0) 60,
      (predict_step [(mkTs 2023 1 5 9 0, 7)] [("all", [0, 1, 2, 3, 4, 5, 6])] []
        t).isOk = true) ∧
    ((mkTs 2024 3 10 9 0 : Int)
      ∈ date_range (mkTs 2024 3 10 9 0) (mkTs 2024 3 10 9 0) 60) ∧
    get_weekday_group (effective_weekday (mkTs 2024 3 10 9 0) [])
      [("all", [0, 1, 2, 3, 4, 5, 6])] = Except.ok "all" ∧
    extracted_vals [(mkTs 2023 1 5 9 0, 7)]
      (find_nearest_comparison_days (mkTs 2024 3 10 9 0) [(mkTs 2023 1 5 9 0, 7)]
        "all" [("all", [0, 1, 2, 3, 4, 5, 6])]) (mkTs 2024 3 10 9 0) = [] ∧
    ((mkTs 2024 3 10 9 0, (none : Option ℚ))
      ∈ (date_range (mkTs 2024 3 10 9 0) (mkTs 2024 3 10 9 0) 60).map
          (step_pair [(mkTs 2023 1 5 9 0, 7)] [("all", [0, 1, 2, 3, 4, 5, 6])] [])) :=
  ⟨by decide, by decide, by decide, by decide,
    (empty_extraction_missing_marker [(mkTs 2023 1 5 9 0, 7)]
      [("all", [0, 1, 2, 3, 4, 5, 6])] [] (mkTs 2024 3 10 9 0) (mkTs 2024 3 10 9 0)
      60 (mkTs 2024 3 10 9 0) "all"
      (by decide) (by decide) (by decide) (by decide)).2.1⟩

/-- C8 counterexample: the valid period (0, 50) at step 30 produces the
timestamps [0, 30] — the end timestamp 50 is not included, so the result
is not inclusive of both endpoints as claimed. -/
theorem endpoint_excluded :
    predict_next_year [] ((0 : Int), (50 : Int)) [("all", [0, 1, 2, 3, 4, 5, 6])]
        30 [] = Except.ok [((0 : Int), (none : Option ℚ)), ((30 : Int), none)] ∧
    (0 : Int) ≤ 50 ∧
    ((50 : Int) ∉ ([((0 : Int), (none : Option ℚ)), ((30 : Int), none)].map Prod.fst)) := by
  refine ⟨by decide, by decide, by decide⟩

/-- C8 amended: for a valid period (positive step, start ≤ end) a
successful run has exactly the grid timestamps start, start+step, ...,
strictly increasing, one pair per grid point, starting at the period
start, never exceeding the end, and including the end exactly when the
period length is a multiple of the step. -/
theorem forecast_grid_props (historical_data : List Row)
    (weekday_groups : List (String × List Int)) (holiday_map : List (Int × Int))
    (start_date end_date : Int) (freq : Nat) (res : List (Int × Option ℚ))
    (hfreq : 0 < freq) (hle : start_date ≤ end_date)
    (hok : predict_next_year historical_data (start_date, end_date) weekday_groups
      freq holiday_map = Except.ok res) :
    res.map Prod.fst = date_range start_date end_date freq ∧
    (res.map Prod.fst).Pairwise (fun s t => s < t) ∧
    res.length = (end_date - start_date).toNat / freq + 1 ∧
    start_date ∈ res.map Prod.fst ∧
    (∀ t ∈ res.map Prod.fst, t ≤ end_date) ∧
    ((end_date - start_date) % (freq : Int) = 0 → end_date ∈ res.map Prod.fst) := by
  have hres := predict_steps_eq_of_ok _ _ _ _ _ hok
  have hmap : res.map Prod.fst = date_range start_date end_date freq := by
    rw [hres, List.map_map]
    have hcomp : (Prod.fst ∘ step_pair historical_data weekday_groups holiday_map)
        = id := by
      funext t
      exact step_pair_fst _ _ _ t
    rw [hcomp, List.map_id]
  have hD : (((end_date - start_date).toNat : Int)) = end_date - start_date :=
    Int.toNat_of_nonneg (by omega)
  refine ⟨hmap, ?_, ?_, ?_, ?_, ?_⟩
  · rw [hmap, date_range_eq _ _ _ hle hfreq]
    refine (List.pairwise_lt_range _).map _ ?_
    intro i j hij
    have hmul : i * freq < j * freq := mul_lt_mul_of_pos_right hij hfreq
    have hi : ((i * freq : Nat) : Int) < ((j * freq : Nat) : Int) := by
      exact_mod_cast hmul
    linarith
  · rw [hres, List.length_map, date_range_eq _ _ _ hle hfreq, List.length_map,
      List.length_range]
  · rw [hmap, date_range_eq _ _ _ hle hfreq]
    exact List.mem_map.mpr ⟨0, List.mem_range.mpr (Nat.succ_pos _), by simp⟩
  · intro t ht
    rw [hmap, date_range_eq _ _ _ hle hfreq] at ht
    rcases List.mem_map.mp ht with ⟨i, hi, rfl⟩
    have hi2 : i ≤ (end_date - start_date).toNat / freq :=
      Nat.lt_succ_iff.mp (List.mem_range.mp hi)
    have h1 : i * freq ≤ (end_date - start_date).toNat :=
      le_trans (Nat.mul_le_mul_right _ hi2) (Nat.div_mul_le_self _ _)
    have h2 : ((i * freq : Nat) : Int) ≤ end_date - start_date := by
      calc ((i * freq : Nat) : Int)
          ≤ (((end_date - start_date).toNat : Int)) := by exact_mod_cast h1
        _ = end_date - start_date := hD
    linarith
  · intro hmod
    rw [hmap, date_range_eq _ _ _ hle hfreq]
    have hmod2 : ((end_date - start_date).toNat : Int) % (freq : Int) = 0 := by
      rw [hD]
      exact hmod
    have hdvd : freq ∣ (end_date - start_date).toNat := by
      exact_mod_cast Int.dvd_of_emod_eq_zero hmod2
    refine List.mem_map.mpr ⟨(end_date - start_date).toNat / freq,
      List.mem_range.mpr (Nat.lt_succ_self _), ?_⟩
    rw [Nat.div_mul_cancel hdvd, hD]
    omega

/-- Witness for the amended C8 theorem at the concrete period (0, 90),
step 30. -/
theorem forecast_grid_props_witness :
    (0 : Nat) < 30 ∧ (0 : Int) ≤ 90 ∧
    predict_next_year [] ((0 : Int), (90 : Int)) [("all", [0, 1, 2, 3, 4, 5, 6])]
        30 []
      = Except.ok [((0 : Int), (none : Option ℚ)), (30, none), (60, none), (90, none)] ∧
    ([((0 : Int), (none : Option ℚ)), (30, none), (60, none), (90, none)].map Prod.fst
      = date_range 0 90 30) :=
  ⟨by decide, by decide, by decide,
    (forecast_grid_props [] [("all", [0, 1, 2, 3, 4, 5, 6])] [] 0 90 30
      [((0 : Int), (none : Option ℚ)), (30, none), (60, none), (90, none)]
      (by decide) (by decide) (by decide)).1⟩

/-- C1 (Scenario A, divergence): three historical Dec-25 09:00 values
(10, 20, 30), target 2024-12-25 09:00, N = 4, the holiday map sending the
calendar date Dec-25 2024 (midnight key) to the Saturday ordinal 5, and a
group map in which the group of ordinal 5 also holds the natural weekdays
of the historical occurrences.  The code compares holiday keys against the full
timestamp, so the override never fires at 09:00: the target is classified
by natural weekday 2 (Wednesday) into the other group, the Dec-25 pool
there is empty, and the predicted value is the missing marker — not
mean(10, 20, 30) = 20. -/
theorem scenarioA_eval :
    get_weekday_group
        (effective_weekday (mkTs 2024 12 25 9 0) [(mkTs 2024 12 25 0 0, 5)])
        [("Sat", [0, 5, 6]), ("Mid", [1, 2, 3, 4])] = Except.ok "Mid" ∧
    predict_next_year
      [(mkTs 2021 12 25 9 0, 10), (mkTs 2022 12 25 9 0, 20), (mkTs 2023 12 25 9 0, 30)]
      (mkTs 2024 12 25 9 0, mkTs 2024 12 25 9 0)
      [("Sat", [0, 5, 6]), ("Mid", [1, 2, 3, 4])] 60
      [(mkTs 2024 12 25 0 0, 5)]
      = Except.ok [(mkTs 2024 12 25 9 0, none)] :=
  ⟨by decide, by decide⟩

/-- C2 (divergence): the holiday override fires only when the full
timestamp equals a map key.  The 09:00 timestamp of Dec-25 2024 — whose
calendar date equals the date of the midnight key — still gets its natural
weekday 2, while the midnight timestamp itself gets the override 5. -/
theorem holiday_override_needs_exact_timestamp :
    apply_holiday_map (mkTs 2024 12 25 9 0) [(mkTs 2024 12 25 0 0, 5)] = 2 ∧
    tsDate (mkTs 2024 12 25 9 0) = tsDate (mkTs 2024 12 25 0 0) ∧
    tsWeekday (mkTs 2024 12 25 9 0) = 2 ∧
    apply_holiday_map (mkTs 2024 12 25 0 0) [(mkTs 2024 12 25 0 0, 5)] = 5 := by
  refine ⟨by decide, by decide, by decide, by decide⟩

/-- C9: the selector returns the nearest index entries, which are full
timestamps: with two observations on 2023-03-10 (09:00 and 10:00) and one
on 2022-03-10, `num_days` = 2 selects both timestamps of the single
nearest calendar day — two entries, one distinct date — and the following
extraction then averages one value from one distinct day, fewer than
min(2, 2 matching calendar dates) = 2. -/
theorem same_day_timestamps_selected :
    find_nearest_comparison_days (mkTs 2024 3 10 9 0)
      [(mkTs 2022 3 10 9 0, 5), (mkTs 2023 3 10 9 0, 1), (mkTs 2023 3 10 10 0, 2)]
      "all" [("all", [0, 1, 2, 3, 4, 5, 6])] 2
      = [mkTs 2023 3 10 9 0, mkTs 2023 3 10 10 0] ∧
    tsDate (mkTs 2023 3 10 9 0) = tsDate (mkTs 2023 3 10 10 0) ∧
    (mkTs 2023 3 10 9 0 : Int) ≠ mkTs 2023 3 10 10 0 ∧
    extracted_vals
      [(mkTs 2022 3 10 9 0, 5), (mkTs 2023 3 10 9 0, 1), (mkTs 2023 3 10 10 0, 2)]
      (find_nearest_comparison_days (mkTs 2024 3 10 9 0)
        [(mkTs 2022 3 10 9 0, 5), (mkTs 2023 3 10 9 0, 1), (mkTs 2023 3 10 10 0, 2)]
        "all" [("all", [0, 1, 2, 3, 4, 5, 6])] 2)
      (mkTs 2024 3 10 9 0) = [1] ∧
    mean_vals [1] = some 1 := by
  refine ⟨by decide, by decide, by decide, by decide, ?_⟩
  simp [mean_vals]

end Prediction

